import Mathlib

/-!
Shallow embedding of `stix2validator/util.py` (option handling, spec-version
reconciliation and the external-data cache helpers), with theorems checking
the natural-language specification against it.

Python dictionaries for documents are modelled by structures whose fields are
`Option`-valued (a missing key is `none`); a value that can be either a string
or a list of strings (the `disabled`/`enabled` fields) is the sum `StrList`;
a raised-and-propagated exception is an `Except.error`; the silent
`try/except: pass` blocks of `check_spec` are modelled by explicit
short-circuiting that keeps the mutations performed before the exception,
exactly as CPython does.  The two check-code registries `CHECK_CODES20` /
`CHECK_CODES21` live in `v20/enums.py` / `v21/enums.py`, whose contents are
not part of this excerpt; they are therefore parameters (association lists
modelling the Python dicts) everywhere below.
-/

/-- A STIX member object inside a bundle, restricted to the dictionary keys
that `check_spec` inspects: `type`, `spec_version` and `id`.  A missing key
is `none`. -/
structure StixObj where
  type_ : Option String
  spec_version : Option String
  id : Option String
deriving DecidableEq, Repr

/-- A top-level STIX document (the `instance` argument of `check_spec`):
the keys `type`, `spec_version`, `id` and `objects`.  The `objects` value,
when present, is a list of member objects. -/
structure StixInstance where
  type_ : Option String
  spec_version : Option String
  id : Option String
  objects : Option (List StixObj)
deriving DecidableEq, Repr

/-- Which of the two versioned check registries is selected (the Python
objects `CHECK_CODES20` and `CHECK_CODES21`). -/
inductive Registry where
  | codes20
  | codes21
deriving DecidableEq, Repr

/-- A value that is either still a comma-separated string or an
already-split list, as the Python `disabled` / `enabled` attributes are. -/
inductive StrList where
  | str (s : String)
  | list (l : List String)
deriving DecidableEq, Repr

/-- Python truthiness of an optional string: `None` and `""` are falsy. -/
def strTruthy : Option String → Bool
  | none => false
  | some s => !s.isEmpty

/-- Python truthiness of a string-or-list: `""` and `[]` are falsy. -/
def strListTruthy : StrList → Bool
  | .str s => !s.isEmpty
  | .list l => !l.isEmpty

/-- Dictionary lookup in a registry (`x in check_codes` / `check_codes[x]`),
modelling the Python dict as an association list. -/
def regLookup : List (String × String) → String → Option String
  | [], _ => none
  | (c, n) :: rest, x => if x = c then some n else regLookup rest x

/-- One entry of the list comprehension
`[check_codes[x] if x in check_codes else x for x in ...]`. -/
def expandEntry (reg : List (String × String)) (x : String) : String :=
  match regLookup reg x with
  | some n => n
  | none => x

/-- The expansion step shared by `check_spec` (lines 447-456): when the value
is truthy, a string is first split on commas, then every entry is mapped
through the registry, unknown entries passing through unchanged. -/
def expandStep (reg : List (String × String)) (d : StrList) : StrList :=
  if strListTruthy d then
    match d with
    | .str s => .list ((s.splitOn ",").map (expandEntry reg))
    | .list l => .list (l.map (expandEntry reg))
  else d

/-- The expansion performed in `ValidationOptions.__init__` (lines 384-391),
whose input is a comma-separated string: split, then map through the
registry; an empty (falsy) string is left untouched. -/
def expandInit (reg : List (String × String)) (s : String) : StrList :=
  if !s.isEmpty then .list ((s.splitOn ",").map (expandEntry reg))
  else .str s

/-- Registry selection (`if version == '2.0': CHECK_CODES20 else
CHECK_CODES21`), performed both in `ValidationOptions.__init__` (lines
377-380) and in `check_spec` (lines 442-445). -/
def selectRegistry (v : Option String) : Registry :=
  if v = some "2.0" then .codes20 else .codes21

/-- The concrete registry table chosen by `selectRegistry`, given the two
tables as parameters. -/
def registryFor (v : Option String) (reg20 reg21 : List (String × String)) :
    List (String × String) :=
  if v = some "2.0" then reg20 else reg21

/-- The option record built by `ValidationOptions.__init__`.  The
`checkCodes` field records which registry `check_spec` selected (the
attribute `options.check_codes`), `none` before `check_spec` has run. -/
structure ValidationOptions where
  version : Option String
  files : Option (List String)
  recursive : Bool
  schemaDir : Option String
  verbose : Bool
  silent : Bool
  disabled : StrList
  enabled : StrList
  strict : Bool
  strictTypes : Bool
  strictProperties : Bool
  noCache : Bool
  refreshCache : Bool
  clearCache : Bool
  enforceRefs : Bool
  checkCodes : Option Registry
deriving DecidableEq, Repr

/-- Discriminates a successful construction from a raised exception. -/
def exceptOk {ε α : Type} : Except ε α → Bool
  | .ok _ => true
  | .error _ => false

/-- The body of `ValidationOptions.__init__` after the per-source field
assignments (lines 371-391): the silent/verbose exclusivity check (the
`set_level` / `set_silent` collaborators only set process-wide output state
and never raise, so they are omitted), local registry selection, and
expansion of the comma-separated `disabled` / `enabled` strings. -/
def ValidationOptions.initCore (reg20 reg21 : List (String × String))
    (version : Option String) (verbose silent : Bool)
    (files : Option (List String)) (recursive : Bool)
    (schemaDir : Option String) (disabled enabled : String)
    (strict strictTypes strictProperties : Bool)
    (noCache refreshCache clearCache enforceRefs : Bool) :
    Except String ValidationOptions :=
  if silent && verbose then
    .error "Error: Output can either be silent or verbose, but not both."
  else
    let reg := registryFor version reg20 reg21
    .ok { version := version, files := files, recursive := recursive,
          schemaDir := schemaDir, verbose := verbose, silent := silent,
          disabled := expandInit reg disabled,
          enabled := expandInit reg enabled,
          strict := strict, strictTypes := strictTypes,
          strictProperties := strictProperties, noCache := noCache,
          refreshCache := refreshCache, clearCache := clearCache,
          enforceRefs := enforceRefs, checkCodes := none }

/-- The parsed-argument namespace handed to `ValidationOptions(cmd_args)`. -/
structure ArgsNS where
  version : Option String
  verbose : Bool
  silent : Bool
  files : Option (List String)
  recursive : Bool
  schemaDir : Option String
  disabled : String
  enabled : String
  strict : Bool
  strictTypes : Bool
  strictProperties : Bool
  noCache : Bool
  refreshCache : Bool
  clearCache : Bool
  enforceRefs : Bool
deriving DecidableEq, Repr

/-- Construction from a parsed argument object (`cmd_args is not None`
branch, lines 333-348): every field is copied from the namespace. -/
def ValidationOptions.ofArgs (reg20 reg21 : List (String × String))
    (args : ArgsNS) : Except String ValidationOptions :=
  ValidationOptions.initCore reg20 reg21 args.version args.verbose args.silent
    args.files args.recursive args.schemaDir args.disabled args.enabled
    args.strict args.strictTypes args.strictProperties args.noCache
    args.refreshCache args.clearCache args.enforceRefs

/-- Construction from keyword values (`cmd_args is None` branch, lines
349-369).  Line 351 of the source assigns `self.version = None`
unconditionally in this branch, so the `version` parameter is accepted but
never stored. -/
def ValidationOptions.ofKeywords (reg20 reg21 : List (String × String))
    (version : String) (verbose silent : Bool)
    (files : Option (List String)) (recursive : Bool)
    (schemaDir : Option String) (disabled enabled : String)
    (strict strictTypes strictProperties : Bool)
    (noCache refreshCache clearCache enforceRefs : Bool) :
    Except String ValidationOptions :=
  let _ := version
  ValidationOptions.initCore reg20 reg21 none verbose silent files recursive
    schemaDir disabled enabled strict strictTypes strictProperties noCache
    refreshCache clearCache enforceRefs

/-- The warning suffix appended after the object identifier in
`check_spec`'s mismatch warnings. -/
def warnMsg (v : String) : String :=
  ": spec_version mismatch with command-line option. Defaulting to " ++
    "spec_version " ++ v

/-- The member-object loop of `check_spec` (lines 418-424) under a known
option version `v`.  Returns the updated object list, the warnings emitted,
and whether an exception escaped (a mismatching object without an `id` key:
its `spec_version` is overwritten before `obj['id']` raises, the remaining
objects are left unvisited, and the warnings collected so far survive). -/
def processObjs (v : String) : List StixObj → List StixObj × List String × Bool
  | [] => ([], [], false)
  | o :: rest =>
    match o.spec_version with
    | some s =>
      if s ≠ v then
        match o.id with
        | some i =>
          let r := processObjs v rest
          ({ o with spec_version := some v } :: r.1,
           (i ++ warnMsg v) :: r.2.1, r.2.2)
        | none => ({ o with spec_version := some v } :: rest, [], true)
      else
        let r := processObjs v rest
        (o :: r.1, r.2.1, r.2.2)
    | none =>
      let r := processObjs v rest
      (o :: r.1, r.2.1, r.2.2)

/-- The known-version branch of `check_spec` (lines 410-426): reconcile the
bundle's own `spec_version`, then every member object's, swallowing any
exception but keeping the mutations and warnings made before it.  Returns
the updated instance and the warnings. -/
def checkSpecKnown (v : String) (inst : StixInstance) :
    StixInstance × List String :=
  match inst.type_ with
  | none => (inst, [])
  | some t =>
    let step1 : StixInstance × List String × Bool :=
      if t = "bundle" then
        match inst.spec_version with
        | some sv =>
          if sv ≠ v then
            let inst' := { inst with spec_version := some v }
            match inst.id with
            | some i => (inst', [i ++ warnMsg v], false)
            | none => (inst', [], true)
          else (inst, [], false)
        | none => (inst, [], false)
      else (inst, [], false)
    if step1.2.2 then (step1.1, step1.2.1)
    else if t = "bundle" then
      match step1.1.objects with
      | some objs =>
        let r := processObjs v objs
        ({ step1.1 with objects := some r.1 }, step1.2.1 ++ r.2.1)
      | none => (step1.1, step1.2.1)
    else (step1.1, step1.2.1)

/-- The scan of lines 433-435: each member object carrying a `spec_version`
overwrites the version accumulated so far; the value before the scan is the
seed. -/
def lastSpecVersion (base : Option String) : List StixObj → Option String
  | [] => base
  | o :: rest =>
    match o.spec_version with
    | some s => lastSpecVersion (some s) rest
    | none => lastSpecVersion base rest

/-- The unknown-version branch of `check_spec` (lines 428-440): read the
top-level `spec_version` first, then let every member object's value
overwrite it in scan order (the `instance['type']` lookup raising when the
key is absent, swallowed), and fall back to "2.0" when the result is still
falsy. -/
def resolveVersion (optVersion : Option String) (inst : StixInstance) :
    String :=
  let v0 : Option String :=
    match inst.spec_version with
    | some sv => some sv
    | none => optVersion
  let v1 : Option String :=
    match inst.type_ with
    | some t =>
      if t = "bundle" then
        match inst.objects with
        | some objs => lastSpecVersion v0 objs
        | none => v0
      else v0
    | none => v0
  match v1 with
  | some s => if s.isEmpty then "2.0" else s
  | none => "2.0"

/-- The whole of `check_spec` (lines 405-458).  Python mutates `instance`
in place and returns `(options, warnings)`; here the triple
`(options, instance, warnings)` is returned.  The registry tables are
parameters since their contents are outside this excerpt. -/
def check_spec (reg20 reg21 : List (String × String))
    (inst : StixInstance) (opts : ValidationOptions) :
    ValidationOptions × StixInstance × List String :=
  let r : ValidationOptions × StixInstance × List String :=
    if strTruthy opts.version then
      match opts.version with
      | some v =>
        let p := checkSpecKnown v inst
        (opts, p.1, p.2)
      | none => (opts, inst, [])
    else
      ({ opts with version := some (resolveVersion opts.version inst) },
       inst, [])
  let opts1 := r.1
  let reg := registryFor opts1.version reg20 reg21
  ({ opts1 with checkCodes := some (selectRegistry opts1.version),
                disabled := expandStep reg opts1.disabled,
                enabled := expandStep reg opts1.enabled },
   r.2.1, r.2.2)

/-- A fully-defaulted keyword-constructed option record, used as the base of
concrete test inputs (mirrors the keyword defaults of the constructor: no
version stored, everything off, empty check lists). -/
def baseOpts : ValidationOptions :=
  { version := none, files := none, recursive := false, schemaDir := none,
    verbose := false, silent := false, disabled := .str "",
    enabled := .str "", strict := false, strictTypes := false,
    strictProperties := false, noCache := false, refreshCache := false,
    clearCache := false, enforceRefs := false, checkCodes := none }

/-- Modelled from the spec: the process state touched by
`init_requests_cache` and `clear_requests_cache` (the cache directory on
disk, the set of cached responses with their creation instants, and whether
the `requests_cache` facility has been installed).  The `os` and
`requests_cache` libraries themselves are outside this excerpt. -/
structure CacheState where
  dirExists : Bool
  entries : List Nat
  installed : Bool
deriving DecidableEq, Repr

/-- The error cause carried by a raised `OSError`: the directory already
exists (`errno.EEXIST`) or any other cause. -/
inductive OSErrno where
  | eexist
  | other
deriving DecidableEq, Repr

/-- Modelled from the spec: `os.makedirs` creates the cache directory,
raising an `OSError` whose errno is `EEXIST` when it already exists. -/
def makedirs (st : CacheState) : Except OSErrno CacheState :=
  if st.dirExists then .error .eexist
  else .ok { st with dirExists := true }

/-- Modelled from the spec: `requests_cache.install_cache` installs the
persistent process-wide response cache (entry expiry is kept abstract). -/
def installCache (st : CacheState) : CacheState :=
  { st with installed := true }

/-- Modelled from the spec: `remove_old_entries(now)` drops every cached
entry strictly older than the given instant. -/
def removeOldEntries (now : Nat) (st : CacheState) : CacheState :=
  { st with entries := st.entries.filter (fun t => decide (now ≤ t)) }

/-- The body of `clear_requests_cache` (lines 499-504): remove every entry
older than the current instant. -/
def clear_requests_cache (now : Nat) (st : CacheState) : CacheState :=
  removeOldEntries now st

/-- The body of `init_requests_cache` (lines 475-497): try to create the
cache directory, re-raising the `OSError` only when its errno is not
`EEXIST`; install the response cache; when `refresh_cache` is set, clear it
immediately. -/
def init_requests_cache (refreshCache : Bool) (now : Nat)
    (st : CacheState) : Except OSErrno CacheState :=
  let finish : CacheState → Except OSErrno CacheState := fun st0 =>
    let st1 := installCache st0
    if refreshCache then .ok (clear_requests_cache now st1) else .ok st1
  match makedirs st with
  | .error e => if e ≠ .eexist then .error e else finish st
  | .ok st' => finish st'

/-- What the member-object loop of `check_spec` does to one object when no
exception interrupts it: a mismatching `spec_version` is overwritten with
the option version, everything else is left alone. -/
def rewriteIf (v : String) (o : StixObj) : StixObj :=
  match o.spec_version with
  | some s => if s ≠ v then { o with spec_version := some v } else o
  | none => o

/-- The warning the member-object loop emits for one object (when that
object has an `id`): present exactly when its `spec_version` mismatches. -/
def warnOf (v : String) (o : StixObj) : Option String :=
  match o.spec_version, o.id with
  | some s, some i => if s ≠ v then some (i ++ warnMsg v) else none
  | _, _ => none

/-- Whether a member object carries a `spec_version` differing from the
option version. -/
def mismatchB (v : String) (o : StixObj) : Bool :=
  match o.spec_version with
  | some s => decide (s ≠ v)
  | none => false

/-- The last present value in a list of optional strings. -/
def lastSome : List (Option String) → Option String
  | [] => none
  | x :: rest =>
    match lastSome rest with
    | some s => some s
    | none => x

/-- Effective version resolution as the code actually performs it, stated
declaratively: the last `spec_version` seen while scanning the bundle's
member objects takes priority, the top-level `spec_version` applies only
when no member carries one, and the legacy default "2.0" is used when the
result is still absent or empty. -/
def amendedEffectiveVersion (inst : StixInstance) : String :=
  let memberLast : Option String :=
    match inst.type_, inst.objects with
    | some t, some objs =>
      if t = "bundle" then lastSome (objs.map StixObj.spec_version) else none
    | _, _ => none
  let chosen : Option String :=
    match memberLast with
    | some s => some s
    | none => inst.spec_version
  match chosen with
  | some s => if s.isEmpty then "2.0" else s
  | none => "2.0"

lemma lastSpecVersion_eq (base : Option String) (objs : List StixObj) :
    lastSpecVersion base objs =
      match lastSome (objs.map StixObj.spec_version) with
      | some s => some s
      | none => base := by
  induction objs generalizing base with
  | nil => rfl
  | cons o rest ih =>
    cases hsv : o.spec_version with
    | some s =>
      simp only [lastSpecVersion, hsv, List.map, lastSome, ih]
      cases lastSome (rest.map StixObj.spec_version) <;> rfl
    | none =>
      simp only [lastSpecVersion, hsv, List.map, lastSome, ih]
      cases lastSome (rest.map StixObj.spec_version) <;> rfl

lemma resolveVersion_amended (optVersion : Option String)
    (inst : StixInstance) (h : strTruthy optVersion = false) :
    resolveVersion optVersion inst = amendedEffectiveVersion inst := by
  have hbase :
      (match (match inst.spec_version with
              | some sv => some sv
              | none => optVersion) with
       | some s => if s.isEmpty then "2.0" else s
       | none => "2.0") =
      (match inst.spec_version with
       | some s => if s.isEmpty then "2.0" else s
       | none => "2.0") := by
    cases inst.spec_version with
    | some sv => rfl
    | none =>
      cases optVersion with
      | none => rfl
      | some s =>
        simp only [strTruthy, Bool.not_eq_false', Bool.not_eq_true] at h
        simp [h]
  unfold resolveVersion amendedEffectiveVersion
  cases ht : inst.type_ with
  | none =>
    cases ho : inst.objects with
    | none => simpa using hbase
    | some objs => simpa using hbase
  | some t =>
    cases ho : inst.objects with
    | none =>
      by_cases hb : t = "bundle"
      · subst hb
        simpa using hbase
      · simp only [if_neg hb]
        simpa using hbase
    | some objs =>
      by_cases hb : t = "bundle"
      · subst hb
        simp only [lastSpecVersion_eq, if_pos rfl]
        cases lastSome (objs.map StixObj.spec_version) with
        | some s => rfl
        | none => simpa using hbase
      · simp only [if_neg hb]
        simpa using hbase

lemma processObjs_allNone (v : String) (objs : List StixObj)
    (h : ∀ o ∈ objs, o.spec_version = none) :
    processObjs v objs = (objs, [], false) := by
  induction objs with
  | nil => rfl
  | cons o rest ih =>
    have ho := h o (by simp)
    have hrest := ih (fun o' ho' => h o' (by simp [ho']))
    simp [processObjs, ho, hrest]

lemma processObjs_total (v : String) (objs : List StixObj)
    (h : ∀ o ∈ objs, ∀ s, o.spec_version = some s → s ≠ v →
      o.id.isSome = true) :
    processObjs v objs =
      (objs.map (rewriteIf v), objs.filterMap (warnOf v), false) := by
  induction objs with
  | nil => rfl
  | cons o rest ih =>
    have hrest := ih (fun o' ho' => h o' (by simp [ho']))
    cases hsv : o.spec_version with
    | none =>
      cases hido : o.id with
      | none => simp [processObjs, hsv, hido, hrest, rewriteIf, warnOf]
      | some i => simp [processObjs, hsv, hido, hrest, rewriteIf, warnOf]
    | some s =>
      by_cases hsv' : s = v
      · subst hsv'
        cases hido : o.id with
        | none => simp [processObjs, hsv, hido, hrest, rewriteIf, warnOf]
        | some i => simp [processObjs, hsv, hido, hrest, rewriteIf, warnOf]
      · have hid := h o (by simp) s hsv hsv'
        cases hido : o.id with
        | none => simp [hido] at hid
        | some i =>
          simp [processObjs, hsv, hsv', hido, hrest, rewriteIf, warnOf]

lemma filterMap_warnOf_length (v : String) (objs : List StixObj)
    (h : ∀ o ∈ objs, ∀ s, o.spec_version = some s → s ≠ v →
      o.id.isSome = true) :
    (objs.filterMap (warnOf v)).length =
      (objs.filter (mismatchB v)).length := by
  induction objs with
  | nil => rfl
  | cons o rest ih =>
    have hrest := ih (fun o' ho' => h o' (by simp [ho']))
    cases hsv : o.spec_version with
    | none =>
      cases hido : o.id with
      | none => simp [warnOf, mismatchB, hsv, hido, hrest]
      | some i => simp [warnOf, mismatchB, hsv, hido, hrest]
    | some s =>
      by_cases hsv' : s = v
      · subst hsv'
        cases hido : o.id with
        | none => simp [warnOf, mismatchB, hsv, hido, hrest]
        | some i => simp [warnOf, mismatchB, hsv, hido, hrest]
      · have hid := h o (by simp) s hsv hsv'
        cases hido : o.id with
        | none => simp [hido] at hid
        | some i =>
          simp [warnOf, mismatchB, hsv, hsv', hido, hrest]

/-- C2: constructing a ValidationOptions with both silent and verbose set
always raises the configuration ValueError with the source's message, and
every other combination of the two flags constructs successfully, whatever
the remaining parameters are. -/
theorem validationOptions_silent_verbose_exclusive
    (reg20 reg21 : List (String × String)) (version : Option String)
    (files : Option (List String)) (recursive : Bool)
    (schemaDir : Option String) (disabled enabled : String)
    (strict strictTypes strictProperties : Bool)
    (noCache refreshCache clearCache enforceRefs : Bool) :
    (∀ verbose silent : Bool,
      exceptOk (ValidationOptions.initCore reg20 reg21 version verbose silent
        files recursive schemaDir disabled enabled strict strictTypes
        strictProperties noCache refreshCache clearCache enforceRefs) =
        !(silent && verbose)) ∧
    ValidationOptions.initCore reg20 reg21 version true true files recursive
      schemaDir disabled enabled strict strictTypes strictProperties noCache
      refreshCache clearCache enforceRefs =
      Except.error
        "Error: Output can either be silent or verbose, but not both." := by
  constructor
  · intro verbose silent
    cases verbose <;> cases silent <;>
      simp [ValidationOptions.initCore, exceptOk]
  · rfl

/-- C3: every version value other than the string "2.0" (including an
absent one) selects the 2.1 registry, exactly "2.0" selects the legacy 2.0
registry, and check_spec stores precisely the registry selected from its
resolved version into options.check_codes. -/
theorem registry_selection_correct :
    (∀ v : Option String, v ≠ some "2.0" →
      selectRegistry v = Registry.codes21 ∧
      ∀ reg20 reg21 : List (String × String),
        registryFor v reg20 reg21 = reg21) ∧
    selectRegistry (some "2.0") = Registry.codes20 ∧
    (∀ reg20 reg21 : List (String × String),
      registryFor (some "2.0") reg20 reg21 = reg20) ∧
    (∀ (reg20 reg21 : List (String × String)) (inst : StixInstance)
      (opts : ValidationOptions),
      (check_spec reg20 reg21 inst opts).1.checkCodes =
        some (selectRegistry (check_spec reg20 reg21 inst opts).1.version)) := by
  refine ⟨?_, rfl, fun _ _ => rfl, fun _ _ _ _ => rfl⟩
  intro v hv
  exact ⟨by simp [selectRegistry, hv],
         fun reg20 reg21 => by simp [registryFor, hv]⟩

/-- C3 witness: the version string "2.1" selects the 2.1 registry and
"2.0" the legacy one. -/
theorem registry_selection_correct_witness :
    selectRegistry (some "2.1") = Registry.codes21 :=
  (registry_selection_correct.1 (some "2.1") (by decide)).1

/-- C4: expanding a nonempty comma-separated enable/disable string (in
check_spec and likewise in the constructor) yields the comma-split list
mapped entrywise through the registry, so the output has the split list's
length in its order, registry keys are replaced by their registry names and
every other entry passes through unchanged. -/
theorem expand_mixed_codes (reg : List (String × String)) (s : String)
    (h : s ≠ "") :
    expandStep reg (StrList.str s) =
      StrList.list ((s.splitOn ",").map (expandEntry reg)) ∧
    expandInit reg s =
      StrList.list ((s.splitOn ",").map (expandEntry reg)) ∧
    ((s.splitOn ",").map (expandEntry reg)).length =
      (s.splitOn ",").length ∧
    (∀ x n, regLookup reg x = some n → expandEntry reg x = n) ∧
    (∀ x, regLookup reg x = none → expandEntry reg x = x) := by
  have hne : s.isEmpty = false := by
    cases he : s.isEmpty
    · rfl
    · exact absurd ((String.isEmpty_iff s).mp he) h
  refine ⟨?_, ?_, List.length_map _ _, ?_, ?_⟩
  · simp [expandStep, strListTruthy, hne]
  · simp [expandInit, hne]
  · intro x n hx
    simp [expandEntry, hx]
  · intro x hx
    simp [expandEntry, hx]

/-- C4 witness: the input "101,foo" with a registry mapping code "101"
expands to the split-and-mapped list. -/
theorem expand_mixed_codes_witness :
    expandStep [("101", "custom-prefix")] (StrList.str "101,foo") =
      StrList.list (("101,foo".splitOn ",").map
        (expandEntry [("101", "custom-prefix")])) :=
  (expand_mixed_codes [("101", "custom-prefix")] "101,foo" (by decide)).1

/-- C7: the expansion step of check_spec is a no-op on a list none of whose
entries is a key of the registry (an already-expanded list of canonical
names). -/
theorem expand_idempotent_on_expanded (reg : List (String × String))
    (l : List String) (h : ∀ x ∈ l, regLookup reg x = none) :
    expandStep reg (StrList.list l) = StrList.list l := by
  have hmap : ∀ l' : List String, (∀ x ∈ l', regLookup reg x = none) →
      l'.map (expandEntry reg) = l' := by
    intro l' hl'
    induction l' with
    | nil => rfl
    | cons x rest ih =>
      have hx := hl' x (by simp)
      have hr := ih (fun y hy => hl' y (by simp [hy]))
      simp [expandEntry, hx, hr]
  cases l with
  | nil => rfl
  | cons x rest =>
    simp only [expandStep, strListTruthy]
    simp [hmap _ h]

/-- C7 witness: re-expanding an already-expanded list of canonical names
leaves it unchanged. -/
theorem expand_idempotent_on_expanded_witness :
    expandStep [("101", "custom-prefix")]
      (StrList.list ["custom-prefix", "kill-chain-names"]) =
      StrList.list ["custom-prefix", "kill-chain-names"] :=
  expand_idempotent_on_expanded [("101", "custom-prefix")]
    ["custom-prefix", "kill-chain-names"] (by decide)

/-- C8: keyword construction (the cmd_args-is-None branch) stores None as
the version no matter what was passed for the version parameter: line 351
of the source discards it. -/
theorem ofKeywords_discards_version
    (reg20 reg21 : List (String × String)) (version : String)
    (verbose silent : Bool) (files : Option (List String)) (recursive : Bool)
    (schemaDir : Option String) (disabled enabled : String)
    (strict strictTypes strictProperties : Bool)
    (noCache refreshCache clearCache enforceRefs : Bool)
    (o : ValidationOptions)
    (h : ValidationOptions.ofKeywords reg20 reg21 version verbose silent
      files recursive schemaDir disabled enabled strict strictTypes
      strictProperties noCache refreshCache clearCache enforceRefs =
      Except.ok o) :
    o.version = none := by
  unfold ValidationOptions.ofKeywords ValidationOptions.initCore at h
  cases hb : silent && verbose with
  | true => simp [hb] at h
  | false =>
    simp only [hb, Bool.false_eq_true, if_false, Except.ok.injEq] at h
    subst h
    rfl

/-- C8 witness: a keyword construction passing version "2.9" yields the
defaulted record, whose version field is None. -/
theorem ofKeywords_discards_version_witness : baseOpts.version = none :=
  ofKeywords_discards_version [] [] "2.9" false false none false none "" ""
    false false false false false false false baseOpts rfl

/-- A bundle whose top-level spec_version is "2.1" while its single member
object carries spec_version "2.0". -/
def c1Inst : StixInstance :=
  { type_ := some "bundle", spec_version := some "2.1",
    id := some "bundle--a",
    objects := some [{ type_ := some "indicator",
                       spec_version := some "2.0",
                       id := some "indicator--b" }] }

/-- C1 counterexample: with no option version, the effective version
resolved for c1Inst is the member object's "2.0", not the top-level "2.1"
which the claim says becomes the effective version. -/
theorem check_spec_top_level_not_effective :
    c1Inst.spec_version = some "2.1" ∧
    (check_spec [] [] c1Inst baseOpts).1.version = some "2.0" ∧
    (check_spec [] [] c1Inst baseOpts).1.version ≠ c1Inst.spec_version := by
  decide

/-- C1 amended: when options carries no truthy version, check_spec resolves
the effective version with the precedence the code implements: the last
spec_version seen while scanning the bundle's member objects takes priority
over the top-level spec_version, which applies only when no member carries
one, with the legacy "2.0" as the final fallback for an absent or empty
result; the resolution branch emits no warnings. -/
theorem check_spec_effective_version_amended
    (reg20 reg21 : List (String × String)) (inst : StixInstance)
    (opts : ValidationOptions) (h : strTruthy opts.version = false) :
    (check_spec reg20 reg21 inst opts).1.version =
      some (amendedEffectiveVersion inst) ∧
    (check_spec reg20 reg21 inst opts).2.2 = [] := by
  unfold check_spec
  rw [h]
  exact ⟨congrArg some (resolveVersion_amended opts.version inst h), rfl⟩

/-- A document with no spec_version anywhere. -/
def noVerInst : StixInstance :=
  { type_ := some "identity", spec_version := none,
    id := some "identity--c", objects := none }

/-- C1 witness: a document with no option version and no spec_version
anywhere resolves to the amended effective version (which evaluates to
"2.0") with no warnings. -/
theorem check_spec_effective_version_amended_witness :
    (check_spec [] [] noVerInst baseOpts).1.version =
      some (amendedEffectiveVersion noVerInst) ∧
    (check_spec [] [] noVerInst baseOpts).2.2 = [] :=
  check_spec_effective_version_amended [] [] noVerInst baseOpts rfl

/-- C5: for a bundle-typed document with top-level spec_version "2.0", an
id, and no member object carrying a spec_version, running check_spec with
option version "2.1" overwrites the document's spec_version to "2.1" and
returns exactly one warning, built from the bundle's id. -/
theorem check_spec_bundle_rewrite_one_warning
    (reg20 reg21 : List (String × String)) (opts : ValidationOptions)
    (inst : StixInstance) (bid : String)
    (hv : opts.version = some "2.1")
    (ht : inst.type_ = some "bundle")
    (hs : inst.spec_version = some "2.0")
    (hid : inst.id = some bid)
    (hobjs : ∀ objs, inst.objects = some objs →
      ∀ o ∈ objs, o.spec_version = none) :
    (check_spec reg20 reg21 inst opts).2.1.spec_version = some "2.1" ∧
    (check_spec reg20 reg21 inst opts).2.2 = [bid ++ warnMsg "2.1"] := by
  have hsplit :
      (check_spec reg20 reg21 inst opts).2.1 =
        (checkSpecKnown "2.1" inst).1 ∧
      (check_spec reg20 reg21 inst opts).2.2 =
        (checkSpecKnown "2.1" inst).2 := by
    unfold check_spec
    rw [hv]
    exact ⟨rfl, rfl⟩
  have hsk : (checkSpecKnown "2.1" inst).1.spec_version = some "2.1" ∧
      (checkSpecKnown "2.1" inst).2 = [bid ++ warnMsg "2.1"] := by
    unfold checkSpecKnown
    cases ho : inst.objects with
    | none => simp [ht, hs, hid, ho]
    | some objs =>
      simp [ht, hs, hid, ho, processObjs_allNone "2.1" objs (hobjs objs ho)]
  exact ⟨hsplit.1 ▸ hsk.1, hsplit.2 ▸ hsk.2⟩

/-- A bundle with top-level spec_version "2.0", an id, and one member
object without a spec_version. -/
def c5Inst : StixInstance :=
  { type_ := some "bundle", spec_version := some "2.0",
    id := some "bundle--w5",
    objects := some [{ type_ := some "indicator", spec_version := none,
                       id := some "indicator--w5" }] }

/-- C5 witness: on the concrete bundle c5Inst with option version "2.1",
the document is rewritten to "2.1" and exactly one warning naming the
bundle id is returned. -/
theorem check_spec_bundle_rewrite_one_warning_witness :
    (check_spec [] [] c5Inst
      { baseOpts with version := some "2.1" }).2.1.spec_version =
        some "2.1" ∧
    (check_spec [] [] c5Inst { baseOpts with version := some "2.1" }).2.2 =
      ["bundle--w5" ++ warnMsg "2.1"] :=
  check_spec_bundle_rewrite_one_warning [] [] _ c5Inst "bundle--w5"
    rfl rfl rfl rfl
    (fun objs hobj => by
      injection hobj with h2
      subst h2
      decide)

/-- C6: for a bundle with three member objects, each carrying a
spec_version and every mismatching one carrying an id, of which exactly
two mismatch the option version, check_spec rewrites exactly the
mismatching members (matching members are untouched) and returns exactly
two warnings, one per rewritten member, built from that member's id. -/
theorem check_spec_three_member_reconciliation
    (reg20 reg21 : List (String × String)) (opts : ValidationOptions)
    (inst : StixInstance) (v : String)
    (hv : opts.version = some v) (hvt : v ≠ "")
    (ht : inst.type_ = some "bundle")
    (hs : inst.spec_version = none ∨ inst.spec_version = some v)
    (o1 o2 o3 : StixObj) (hobjs : inst.objects = some [o1, o2, o3])
    (hids : ∀ o ∈ [o1, o2, o3], ∀ s, o.spec_version = some s → s ≠ v →
      o.id.isSome = true)
    (hcount : ([o1, o2, o3].filter (mismatchB v)).length = 2) :
    (check_spec reg20 reg21 inst opts).2.1.objects =
      some ([o1, o2, o3].map (rewriteIf v)) ∧
    (∀ o ∈ [o1, o2, o3], mismatchB v o = false → rewriteIf v o = o) ∧
    (∀ o ∈ [o1, o2, o3], mismatchB v o = true →
      (rewriteIf v o).spec_version = some v) ∧
    (check_spec reg20 reg21 inst opts).2.2 =
      [o1, o2, o3].filterMap (warnOf v) ∧
    (check_spec reg20 reg21 inst opts).2.2.length = 2 := by
  have hne : v.isEmpty = false := by
    cases he : v.isEmpty
    · rfl
    · exact absurd ((String.isEmpty_iff v).mp he) hvt
  have hsplit :
      (check_spec reg20 reg21 inst opts).2.1 = (checkSpecKnown v inst).1 ∧
      (check_spec reg20 reg21 inst opts).2.2 = (checkSpecKnown v inst).2 := by
    unfold check_spec
    rw [hv]
    have hT : strTruthy (some v) = true := by simp [strTruthy, hne]
    rw [hT]
    exact ⟨by trivial, by trivial⟩
  have hp := processObjs_total v [o1, o2, o3] hids
  have hsk : (checkSpecKnown v inst).1.objects =
      some ([o1, o2, o3].map (rewriteIf v)) ∧
      (checkSpecKnown v inst).2 = [o1, o2, o3].filterMap (warnOf v) := by
    unfold checkSpecKnown
    cases hs with
    | inl h0 => simp [ht, h0, hobjs, hp]
    | inr h0 => simp [ht, h0, hobjs, hp]
  have hlen := filterMap_warnOf_length v [o1, o2, o3] hids
  refine ⟨hsplit.1 ▸ hsk.1, ?_, ?_, hsplit.2 ▸ hsk.2, ?_⟩
  · intro o _ hm
    unfold rewriteIf
    cases hsv : o.spec_version with
    | none => rfl
    | some s =>
      simp only [mismatchB, hsv, decide_eq_false_iff_not, not_not] at hm
      simp [hm]
  · intro o _ hm
    unfold rewriteIf
    cases hsv : o.spec_version with
    | none => simp [mismatchB, hsv] at hm
    | some s =>
      simp only [mismatchB, hsv, decide_eq_true_eq] at hm
      simp [hm]
  · rw [hsplit.2, hsk.2, hlen]
    exact hcount

/-- A bundle with three member objects: two carry spec_version "2.0" and
one carries "2.1", all with ids. -/
def c6Inst : StixInstance :=
  { type_ := some "bundle", spec_version := none, id := some "bundle--w6",
    objects := some
      [{ type_ := some "indicator", spec_version := some "2.0",
         id := some "indicator--w61" },
       { type_ := some "malware", spec_version := some "2.0",
         id := some "malware--w62" },
       { type_ := some "tool", spec_version := some "2.1",
         id := some "tool--w63" }] }

/-- C6 witness: on the concrete bundle c6Inst with option version "2.1",
exactly two warnings are produced. -/
theorem check_spec_three_member_reconciliation_witness :
    (check_spec [] [] c6Inst
      { baseOpts with version := some "2.1" }).2.2.length = 2 :=
  (check_spec_three_member_reconciliation [] [] _ c6Inst "2.1"
    rfl (by decide) rfl (Or.inl rfl) _ _ _ rfl (by decide)
    (by decide)).2.2.2.2

/-- A bundle with a mismatching top-level spec_version but no id key, whose
member object also mismatches and has an id. -/
def c9Inst : StixInstance :=
  { type_ := some "bundle", spec_version := some "2.0", id := none,
    objects := some [{ type_ := some "indicator",
                       spec_version := some "2.0",
                       id := some "indicator--x" }] }

/-- C9: a concrete input on which check_spec is not atomic: the bundle's
spec_version is overwritten to the option version, yet because the lookup
of the absent id key raises (and the exception is swallowed), zero warnings
are returned and the member object, though itself mismatching, is left
unreconciled. -/
theorem check_spec_mutation_without_warning :
    (check_spec [] [] c9Inst
      { baseOpts with version := some "2.1" }).2.1.spec_version =
        some "2.1" ∧
    (check_spec [] [] c9Inst { baseOpts with version := some "2.1" }).2.2 =
      [] ∧
    (check_spec [] [] c9Inst
      { baseOpts with version := some "2.1" }).2.1.objects =
      some [{ type_ := some "indicator", spec_version := some "2.0",
              id := some "indicator--x" }] := by
  decide

/-- C10: cache initialization never raises in this model (a directory
creation failure is fatal only when its cause is other than the directory
already existing, and here the only creation failure is exactly that one),
so a second initialization with the directory already present succeeds, and
a subsequent clear removes every entry created before the clearing
instant, leaving zero entries. -/
theorem requests_cache_reinit_and_clear :
    (∀ (refresh : Bool) (now : Nat) (st : CacheState),
      exceptOk (init_requests_cache refresh now st) = true) ∧
    (∀ (r1 r2 : Bool) (n1 n2 : Nat) (st st1 : CacheState),
      init_requests_cache r1 n1 st = Except.ok st1 →
      exceptOk (init_requests_cache r2 n2 st1) = true) ∧
    (∀ (now : Nat) (st : CacheState),
      (∀ t ∈ st.entries, t < now) →
      (clear_requests_cache now st).entries = []) := by
  have hok : ∀ (refresh : Bool) (now : Nat) (st : CacheState),
      exceptOk (init_requests_cache refresh now st) = true := by
    intro refresh now st
    unfold init_requests_cache makedirs
    cases hd : st.dirExists <;> cases refresh <;> simp [exceptOk]
  refine ⟨hok, fun r1 r2 n1 n2 st st1 _ => hok r2 n2 st1, ?_⟩
  intro now st h
  have hfil : ∀ l : List Nat, (∀ t ∈ l, t < now) →
      l.filter (fun t => decide (now ≤ t)) = [] := by
    intro l hl
    induction l with
    | nil => rfl
    | cons a rest ih =>
      have ha := hl a (by simp)
      have hr := ih (fun t htl => hl t (by simp [htl]))
      have hna : (decide (now ≤ a)) = false :=
        decide_eq_false (Nat.not_le.mpr ha)
      simp [List.filter_cons, hna, hr]
  unfold clear_requests_cache removeOldEntries
  exact hfil st.entries h

/-- A cache state with its directory present and three stale entries. -/
def c10St : CacheState :=
  { dirExists := true, entries := [1, 2, 3], installed := true }

/-- C10 witness: clearing a cache whose three entries all predate the
clearing instant leaves zero entries. -/
theorem requests_cache_reinit_and_clear_witness :
    (clear_requests_cache 5 c10St).entries = [] :=
  requests_cache_reinit_and_clear.2.2 5 c10St (by decide)
